import Mathlib

/-!
Shallow embedding of the `wilo` text editor's core (src/src/main.rs).

The Rust `Buffer` struct owns the document lines, the logical cursor
(`cx`, `cy`), the viewport offsets (`roff`, `coff`) and the terminal
dimensions (`w`, `h`).  Machine integers (`usize`, `i32`) are modelled
as `Nat`/`Int`; theorems carry a `Small` hypothesis bounding every
quantity by `2 ^ 29` so that the idealized arithmetic coincides with
the Rust `i32`/`usize` arithmetic (no wrap, no overflow) on the states
they quantify over.
-/

namespace Wilo

/-- Rust `Vec::insert(i, a)`: insert `a` at index `i`, shifting the tail.
Defined for `i ≤ l.length` (Rust panics otherwise). -/
def insertAt (l : List α) (i : Nat) (a : α) : List α :=
  l.take i ++ a :: l.drop i

/-- Rust `Vec::remove(i)` (the mutation part): delete the element at
index `i`, shifting the tail left.  Defined for `i < l.length`
(Rust panics otherwise). -/
def removeAt (l : List α) (i : Nat) : List α :=
  l.take i ++ l.drop (i + 1)

/-- The Rust `Buffer` struct (src/src/main.rs lines 20-28). -/
structure Buffer where
  roff : Nat
  coff : Nat
  cx : Nat
  cy : Nat
  w : Nat
  h : Nat
  lines : List (List Char)
  deriving DecidableEq, Repr

namespace Buffer

/-- `impl Default for Buffer` (lines 30-42): all zeros and a single empty
line. -/
def defaultBuffer : Buffer :=
  { roff := 0, coff := 0, cx := 0, cy := 0, w := 0, h := 0, lines := [[]] }

/-- `Buffer::line` (lines 45-47): the line at the cursor row.  The Rust
code unwraps (`lines.get_mut(cy).unwrap()`), which panics when
`cy ≥ lines.len()`; we read with a default and require `cy < lines.length`
in theorems. -/
def line (b : Buffer) : List Char :=
  b.lines.getD b.cy []

/-- `Buffer::move_caret(row, col)` (lines 88-104): clamp the row to
`[0, lines.len()-1]`, rederive `roff`, clamp the column against the NEW
row's length, rederive `coff`.  `h - 2` and `w - 1` are Rust `usize`
subtractions; theorems require `2 ≤ h` and `1 ≤ w` so that `Nat`
truncated subtraction agrees. -/
def move_caret (b : Buffer) (row col : Int) : Buffer :=
  let numLines : Int := b.lines.length
  let cy : Nat := (min (max ((b.cy : Int) + row) 0) (numLines - 1)).toNat
  let roff : Nat :=
    if cy < b.roff then cy
    else if b.roff + (b.h - 2) < cy then cy - (b.h - 2)
    else b.roff
  let lineLen : Int := (b.lines.getD cy []).length
  let cx : Nat := (min (max ((b.cx : Int) + col) 0) lineLen).toNat
  let coff : Nat :=
    if cx < b.coff then cx
    else if b.coff + (b.w - 1) < cx then cx - (b.w - 1)
    else b.coff
  { b with cy := cy, roff := roff, cx := cx, coff := coff }

/-- `Buffer::push(c)` (lines 49-60).  On `'\n'`: drain the tail of the
current line from the cursor column, insert it as a new line below, then
`move_caret(1, -(self.cy as i32))` — note the Rust code negates the ROW
`cy`, not the column `cx`.  Otherwise insert `c` at the cursor column and
`move_caret(0, 1)`. -/
def push (b : Buffer) (c : Char) : Buffer :=
  let cx := b.cx
  if c = '\n' then
    let newLine := b.line.drop cx
    let b1 := { b with
      lines := insertAt (b.lines.set b.cy (b.line.take cx)) (b.cy + 1) newLine }
    b1.move_caret 1 (-(b.cy : Int))
  else
    let b1 := { b with lines := b.lines.set b.cy (insertAt b.line cx c) }
    b1.move_caret 0 1

/-- `Buffer::backspace` (lines 62-75).  At column 0 of a row `cy ≠ 0`:
remove the current line, `move_caret(-1, 0)`, move the column to the end
of the (previous) line via `move_caret(0, len)`, then extend that line
with the removed one.  At a nonzero column: remove the character before
the cursor and `move_caret(0, -1)`.  Otherwise (column 0, row 0): no-op. -/
def backspace (b : Buffer) : Buffer :=
  let cx := b.cx
  let cy := b.cy
  if cx = 0 ∧ cy ≠ 0 then
    let removed := b.lines.getD cy []
    let b1 := { b with lines := removeAt b.lines cy }
    let b2 := b1.move_caret (-1) 0
    let len : Int := (b2.line.length : Int) - (cx : Int)
    let b3 := b2.move_caret 0 len
    { b3 with lines := b3.lines.set b3.cy (b3.line ++ removed) }
  else if cx ≠ 0 then
    let b1 := { b with lines := b.lines.set cy (removeAt b.line (cx - 1)) }
    b1.move_caret 0 (-1)
  else
    b

/-- `Buffer::delete` (lines 77-86): at end-of-line on a non-last row,
remove the next line and append its content to the current line (cursor
unchanged); strictly inside a line, remove the character at the cursor;
at end-of-line on the last row, no-op. -/
def delete (b : Buffer) : Buffer :=
  let cx := b.cx
  let cy := b.cy
  if cx = b.line.length ∧ b.cy ≠ b.lines.length - 1 then
    let removed := b.lines.getD (cy + 1) []
    let ls := removeAt b.lines (cy + 1)
    { b with lines := ls.set cy (ls.getD cy [] ++ removed) }
  else if cx ≠ b.line.length then
    { b with lines := b.lines.set cy (removeAt b.line cx) }
  else
    b

/-- The spec's data-model invariants on the cursor (§3): the row indexes
an existing line and the column is at most that line's length. -/
def Wf (b : Buffer) : Prop :=
  b.cy < b.lines.length ∧ b.cx ≤ b.line.length

instance (b : Buffer) : Decidable b.Wf := by
  unfold Wf; infer_instance

/-- Bound under which the idealized `Nat`/`Int` model agrees exactly with
the Rust `i32`/`usize` arithmetic of the source. -/
def smallBound : Nat := 2 ^ 29

/-- Every numeric field and every line length is at most `smallBound`,
so no intermediate value of the source's arithmetic overflows. -/
def Small (b : Buffer) : Prop :=
  b.lines.length ≤ smallBound ∧ b.cx ≤ smallBound ∧ b.cy ≤ smallBound ∧
  b.roff ≤ smallBound ∧ b.coff ≤ smallBound ∧ b.h ≤ smallBound ∧
  b.w ≤ smallBound ∧ ∀ l ∈ b.lines, l.length ≤ smallBound

instance (b : Buffer) : Decidable b.Small := by
  unfold Small; infer_instance

end Buffer

/-- `Editor::open(path)` (lines 123-130): on a readable file, replace
`lines` with the file's lines (each line's characters); the cursor and
offsets are not touched.  A failing `File::open` propagates the error
(`?`) without mutating the buffer.  The file system is modelled as an
`Option`: `none` is an unreadable path. -/
def openDoc (b : Buffer) (file : Option (List (List Char))) :
    Except Unit Buffer :=
  match file with
  | none => Except.error ()
  | some ls => Except.ok { b with lines := ls }

/-- The argument dispatch of `main` (lines 253-265): `args` includes the
program name; only `args.len() == 2` opens a file and runs the editor,
every other count prints the usage error and returns before `run()`. -/
inductive MainAction where
  | openAndRun : String → MainAction
  | usageError : MainAction
  deriving DecidableEq, Repr

/-- `main`'s argument check (lines 256-262). -/
def mainDispatch (args : List String) : MainAction :=
  if args.length = 2 then MainAction.openAndRun (args.getD 1 "")
  else MainAction.usageError

/-! ### Basic list and clamp lemmas -/

theorem length_insertAt (l : List α) (i : Nat) (a : α) :
    (insertAt l i a).length = min i l.length + (l.length - i) + 1 := by
  simp [insertAt]
  omega

theorem length_insertAt_of_le (l : List α) (i : Nat) (a : α) (h : i ≤ l.length) :
    (insertAt l i a).length = l.length + 1 := by
  rw [length_insertAt]; omega

theorem length_removeAt_of_lt (l : List α) (i : Nat) (h : i < l.length) :
    (removeAt l i).length = l.length - 1 := by
  simp [removeAt]; omega

theorem getD_removeAt_of_lt (l : List α) (i j : Nat) (hj : j < i)
    (hi : i ≤ l.length) (d : α) :
    (removeAt l i).getD j d = l.getD j d := by
  simp only [removeAt, List.getD_eq_getElem?_getD]
  rw [List.getElem?_append_left, List.getElem?_take_of_lt hj]
  simp only [List.length_take]
  omega

theorem set_removeAt_pred (l : List α) (r : Nat) (v : α) (h1 : 1 ≤ r)
    (h2 : r < l.length) :
    (removeAt l r).set (r - 1) v = l.take (r - 1) ++ v :: l.drop (r + 1) := by
  have hr1 : r - 1 < l.length := by omega
  have htake : List.take r l = List.take (r - 1) l ++ [l[r - 1]] := by
    rw [List.take_concat_get' l (r - 1) hr1]
    congr 1
    omega
  have hlen : (List.take (r - 1) l).length = r - 1 := by
    simp
    omega
  rw [removeAt, htake, List.append_assoc, List.set_append_right _ _ (by omega)]
  have h0 : r - 1 - (List.take (r - 1) l).length = 0 := by omega
  rw [h0]
  simp

theorem toNat_clamp_le (x : Int) (n : Nat) :
    (min (max x 0) (n : Int)).toNat ≤ n := by
  omega

theorem toNat_clamp_lt (x : Int) (n : Nat) (h : 1 ≤ n) :
    (min (max x 0) ((n : Int) - 1)).toNat < n := by
  omega

/-! ### Computation lemmas for `move_caret` -/

namespace Buffer

theorem move_caret_lines (b : Buffer) (dr dc : Int) :
    (b.move_caret dr dc).lines = b.lines := rfl

theorem move_caret_w (b : Buffer) (dr dc : Int) :
    (b.move_caret dr dc).w = b.w := rfl

theorem move_caret_h (b : Buffer) (dr dc : Int) :
    (b.move_caret dr dc).h = b.h := rfl

theorem move_caret_cy (b : Buffer) (dr dc : Int) :
    (b.move_caret dr dc).cy
      = (min (max ((b.cy : Int) + dr) 0) ((b.lines.length : Int) - 1)).toNat := rfl

theorem move_caret_cx (b : Buffer) (dr dc : Int) :
    (b.move_caret dr dc).cx
      = (min (max ((b.cx : Int) + dc) 0)
          (((b.lines.getD ((b.move_caret dr dc).cy) []).length : Int))).toNat := rfl

theorem move_caret_roff (b : Buffer) (dr dc : Int) :
    (b.move_caret dr dc).roff
      = (if (b.move_caret dr dc).cy < b.roff then (b.move_caret dr dc).cy
         else if b.roff + (b.h - 2) < (b.move_caret dr dc).cy then
           (b.move_caret dr dc).cy - (b.h - 2)
         else b.roff) := rfl

theorem move_caret_coff (b : Buffer) (dr dc : Int) :
    (b.move_caret dr dc).coff
      = (if (b.move_caret dr dc).cx < b.coff then (b.move_caret dr dc).cx
         else if b.coff + (b.w - 1) < (b.move_caret dr dc).cx then
           (b.move_caret dr dc).cx - (b.w - 1)
         else b.coff) := rfl

theorem move_caret_line (b : Buffer) (dr dc : Int) :
    (b.move_caret dr dc).line = b.lines.getD ((b.move_caret dr dc).cy) [] := rfl

/-! ### The cursor invariant is preserved -/

theorem wf_move_caret (b : Buffer) (dr dc : Int) (h : b.lines ≠ []) :
    (b.move_caret dr dc).Wf := by
  have hlen : 1 ≤ b.lines.length := List.length_pos.mpr h
  constructor
  · rw [move_caret_cy, move_caret_lines]
    exact toNat_clamp_lt _ _ hlen
  · rw [move_caret_cx, move_caret_line]
    exact toNat_clamp_le _ _

theorem wf_mk (b : Buffer) (L : List (List Char)) (h1 : b.cy < L.length)
    (h2 : b.cx ≤ (L.getD b.cy []).length) :
    ({ b with lines := L } : Buffer).Wf :=
  ⟨h1, h2⟩

theorem wf_set_line_append (b : Buffer) (v : List Char) (hwf : b.Wf) :
    ({ b with lines := b.lines.set b.cy (b.line ++ v) } : Buffer).Wf := by
  obtain ⟨h1, h2⟩ := hwf
  refine wf_mk _ _ ?_ ?_
  · simpa using h1
  · rw [List.getD_eq_getElem?_getD, List.getElem?_set_self h1]
    simp only [Option.getD_some, List.length_append]
    omega

theorem wf_push (b : Buffer) (c : Char) (hwf : b.Wf) : (b.push c).Wf := by
  obtain ⟨hcy, hcx⟩ := hwf
  simp only [Buffer.push]
  by_cases hc : c = '\n'
  · rw [if_pos hc]
    apply wf_move_caret
    show insertAt (b.lines.set b.cy (b.line.take b.cx)) (b.cy + 1)
      (b.line.drop b.cx) ≠ []
    apply List.ne_nil_of_length_pos
    rw [length_insertAt_of_le]
    · omega
    · simp
      omega
  · rw [if_neg hc]
    apply wf_move_caret
    show b.lines.set b.cy (insertAt b.line b.cx c) ≠ []
    apply List.ne_nil_of_length_pos
    simp
    omega

theorem wf_backspace (b : Buffer) (hwf : b.Wf) : b.backspace.Wf := by
  obtain ⟨hcy, hcx⟩ := hwf
  simp only [Buffer.backspace]
  by_cases h1 : b.cx = 0 ∧ b.cy ≠ 0
  · rw [if_pos h1]
    have hne : removeAt b.lines b.cy ≠ [] := by
      apply List.ne_nil_of_length_pos
      rw [length_removeAt_of_lt _ _ hcy]
      omega
    apply wf_set_line_append
    apply wf_move_caret
    rw [move_caret_lines]
    exact hne
  · rw [if_neg h1]
    by_cases h2 : b.cx = 0
    · rw [if_neg (not_not_intro h2)]
      exact ⟨hcy, hcx⟩
    · rw [if_pos h2]
      apply wf_move_caret
      show b.lines.set b.cy (removeAt b.line (b.cx - 1)) ≠ []
      apply List.ne_nil_of_length_pos
      simp
      omega

theorem wf_delete (b : Buffer) (hwf : b.Wf) : b.delete.Wf := by
  obtain ⟨hcy, hcx⟩ := hwf
  simp only [Buffer.delete]
  by_cases h1 : b.cx = b.line.length ∧ b.cy ≠ b.lines.length - 1
  · rw [if_pos h1]
    obtain ⟨hx, hy⟩ := h1
    have hcy1 : b.cy + 1 < b.lines.length := by omega
    apply wf_mk
    · rw [List.length_set, length_removeAt_of_lt _ _ hcy1]
      omega
    · rw [List.getD_eq_getElem?_getD, List.getElem?_set_self
        (by rw [length_removeAt_of_lt _ _ hcy1]; omega)]
      rw [Option.getD_some, List.length_append,
        getD_removeAt_of_lt _ _ _ (Nat.lt_succ_self _) (by omega)]
      simp only [Buffer.line] at hx
      omega
  · rw [if_neg h1]
    by_cases h2 : b.cx = b.line.length
    · have hy : b.cy = b.lines.length - 1 := by
        by_contra hy
        exact h1 ⟨h2, hy⟩
      rw [if_neg (not_not_intro h2)]
      exact ⟨hcy, hcx⟩
    · rw [if_pos h2]
      apply wf_mk
      · simpa using hcy
      · rw [List.getD_eq_getElem?_getD, List.getElem?_set_self hcy,
          Option.getD_some, length_removeAt_of_lt _ _ (by omega)]
        omega

end Buffer

end Wilo

namespace Wilo

/-! ### Concrete buffers used by scenarios, counterexamples and witnesses -/

/-- A one-line document `["ab"]` with the cursor at row 0, column 1, in a
10x5 terminal. -/
def abBuf : Buffer :=
  { roff := 0, coff := 0, cx := 1, cy := 0, w := 10, h := 5
    lines := [['a', 'b']] }

/-- The two-line document `["abc", "def"]` with the cursor at row 1,
column 0 (the C7 scenario's starting state). -/
def abcdefBuf : Buffer :=
  { roff := 0, coff := 0, cx := 0, cy := 1, w := 10, h := 5
    lines := [['a', 'b', 'c'], ['d', 'e', 'f']] }

/-- The C7 scenario's expected result: the single line `"abcdef"` with the
cursor at row 0, column 3. -/
def abcdefMergedBuf : Buffer :=
  { roff := 0, coff := 0, cx := 3, cy := 0, w := 10, h := 5
    lines := [['a', 'b', 'c', 'd', 'e', 'f']] }

/-- A ten-line document in a viewport of height 5, cursor at the origin
(the C9 scenario's starting state). -/
def c9Buf : Buffer :=
  { roff := 0, coff := 0, cx := 0, cy := 0, w := 10, h := 5
    lines := List.replicate 10 [] }

/-- `n` unit down-moves (`move_caret(1, 0)`), as dispatched for the down
arrow key. -/
def downMoves : Nat → Buffer → Buffer
  | 0, b => b
  | n + 1, b => downMoves n (b.move_caret 1 0)

/-! ### Claims -/

/-- C1: the spec claims `len(lines) >= 1` holds after every operation,
"in particular load of an empty sequence of text lines still leaves at
least one (empty) line".  The code violates this: `Editor::open` on a
file with zero lines replaces `lines` by the empty sequence, so the
document has zero lines afterwards. -/
theorem c1_load_empty_leaves_zero_lines :
    ∃ b, openDoc Buffer.defaultBuffer (some []) = Except.ok b ∧
      b.lines.length = 0 :=
  ⟨_, rfl, rfl⟩

/-- C2: the spec claims `0 <= row < len(lines)` holds after every
operation, load included.  The code violates this: after `Editor::open`
of an empty file the row is 0 but there are zero lines, so
`row < len(lines)` fails (and the next `push` would panic in the
source's `line()` unwrap). -/
theorem c2_load_empty_breaks_cursor_bound :
    ∃ b, openDoc Buffer.defaultBuffer (some []) = Except.ok b ∧
      ¬ b.cy < b.lines.length :=
  ⟨_, rfl, by decide⟩

/-- C3: the spec claims `insert_char(newline)` moves the cursor to column
0 of the new line.  The code instead calls `move_caret(1, -(cy as i32))`,
negating the ROW rather than the column, so the new column is
`clamp(k - r, 0, n - k)`.  On the line `"ab"` with the cursor at row 0,
column 1, the line is split correctly but the cursor lands at column 1
of the new line, not column 0. -/
theorem c3_newline_split_cursor_not_at_column_zero :
    (abBuf.push '\n').lines = [['a'], ['b']] ∧
    (abBuf.push '\n').cy = 1 ∧
    (abBuf.push '\n').cx = 1 := by
  decide

/-- C4: the spec claims `insert_char(newline)` followed by `backspace`
restores the original line and cursor for every column `0 <= k <= n`.
Because of the `move_caret(1, -(cy as i32))` slip the cursor is at
column 1 after splitting `"ab"` at column 1 of row 0, so the following
backspace deletes a character of the tail line instead of re-joining:
the result is `["a", ""]` with cursor (row 1, column 0), not the
original `["ab"]` with cursor (row 0, column 1). -/
theorem c4_newline_backspace_roundtrip_fails :
    ((abBuf.push '\n').backspace).lines = [['a'], []] ∧
    ((abBuf.push '\n').backspace).cy = 1 ∧
    ((abBuf.push '\n').backspace).cx = 0 ∧
    (abBuf.push '\n').backspace ≠ abBuf := by
  decide

/-- C5: the spec claims zero positional arguments start the editor with
an empty document, and more than one is a usage error.  The code checks
`args.len() == 2` where `args` includes the program name, so ZERO
positional arguments (argv of length 1) also takes the usage-error path
and returns before `run()`; only exactly one positional argument enters
the editing loop. -/
theorem c5_zero_args_is_usage_error :
    mainDispatch ["wilo"] = MainAction.usageError ∧
    mainDispatch ["wilo", "a.txt", "b.txt"] = MainAction.usageError ∧
    mainDispatch ["wilo", "a.txt"] = MainAction.openAndRun "a.txt" := by
  decide

/-- C6 counterexample: the claim says load "resets the cursor (column,
row) and the viewport offsets to zero"; `Editor::open` only assigns
`lines`, so loading `["x"]` into a buffer whose cursor column is 1
leaves the column at 1, not 0. -/
theorem c6_load_does_not_reset_cursor :
    ∃ b, openDoc abBuf (some [['x']]) = Except.ok b ∧ b.cx ≠ 0 :=
  ⟨_, rfl, by decide⟩

/-- C6 amended: load with a readable sequence of text lines replaces the
entire line sequence and leaves the cursor, the viewport offsets and the
dimensions unchanged; if the source cannot be read, load returns an I/O
error and leaves the document unchanged. -/
theorem c6_load_replaces_lines_keeps_rest (b : Buffer)
    (ls : List (List Char)) :
    (∃ b2, openDoc b (some ls) = Except.ok b2 ∧ b2.lines = ls ∧
      b2.cx = b.cx ∧ b2.cy = b.cy ∧ b2.roff = b.roff ∧ b2.coff = b.coff ∧
      b2.w = b.w ∧ b2.h = b.h) ∧
    openDoc b none = Except.error () :=
  ⟨⟨_, rfl, rfl, rfl, rfl, rfl, rfl, rfl, rfl⟩, rfl⟩

/-- C10: `move_caret` never changes the line sequence (nor the terminal
dimensions); only the cursor and the viewport offsets may change.  The
hypotheses match the data-model invariants plus the bounds under which
the source's machine arithmetic cannot panic or overflow. -/
theorem c10_move_caret_preserves_lines (b : Buffer) (dr dc : Int)
    (_hwf : b.Wf) (_hsm : b.Small) (_hh : 2 ≤ b.h) (_hw : 1 ≤ b.w)
    (_hdr : dr.natAbs ≤ Buffer.smallBound)
    (_hdc : dc.natAbs ≤ Buffer.smallBound) :
    (b.move_caret dr dc).lines = b.lines ∧
    (b.move_caret dr dc).w = b.w ∧ (b.move_caret dr dc).h = b.h :=
  ⟨rfl, rfl, rfl⟩

/-- C10 witness: the frame property instantiated on a concrete buffer and
unit deltas. -/
theorem c10_witness :
    (abcdefBuf.Wf ∧ abcdefBuf.Small ∧ 2 ≤ abcdefBuf.h ∧ 1 ≤ abcdefBuf.w ∧
      (1 : Int).natAbs ≤ Buffer.smallBound ∧ (0 : Int).natAbs ≤ Buffer.smallBound) ∧
    ((abcdefBuf.move_caret 1 0).lines = abcdefBuf.lines ∧
      (abcdefBuf.move_caret 1 0).w = abcdefBuf.w ∧
      (abcdefBuf.move_caret 1 0).h = abcdefBuf.h) :=
  ⟨⟨by decide, by decide, by decide, by decide, by decide, by decide⟩,
    c10_move_caret_preserves_lines abcdefBuf 1 0 (by decide) (by decide)
      (by decide) (by decide) (by decide) (by decide)⟩


/-- C7: at column 0 of a row `r > 0`, backspace appends line `r` to the
end of line `r - 1`, removes line `r`, and moves the cursor to row
`r - 1` with column equal to line `r - 1`'s length before the merge; at
column 0 of row 0 it is a complete no-op; and on `["abc", "def"]` with
the cursor at row 1, column 0, it yields `["abcdef"]` with the cursor at
row 0, column 3. -/
theorem c7_backspace_merges_lines (b : Buffer) (hwf : b.Wf)
    (_hsm : b.Small) (_hh : 2 ≤ b.h) (_hw : 1 ≤ b.w) :
    (b.cx = 0 → b.cy ≠ 0 →
      b.backspace.lines
          = b.lines.take (b.cy - 1)
            ++ (b.lines.getD (b.cy - 1) [] ++ b.lines.getD b.cy [])
              :: b.lines.drop (b.cy + 1)
        ∧ b.backspace.cy = b.cy - 1
        ∧ b.backspace.cx = (b.lines.getD (b.cy - 1) []).length)
    ∧ (b.cx = 0 → b.cy = 0 → b.backspace = b)
    ∧ abcdefBuf.backspace = abcdefMergedBuf := by
  obtain ⟨hcy, hcx⟩ := hwf
  refine ⟨fun hx hy => ?_, fun hx hy => ?_, by decide⟩
  · simp only [Buffer.backspace]
    rw [if_pos ⟨hx, hy⟩]
    set b2 := Buffer.move_caret { b with lines := removeAt b.lines b.cy } (-1) 0
      with hb2
    have hb2lines : b2.lines = removeAt b.lines b.cy := rfl
    have hlenrm : (removeAt b.lines b.cy).length = b.lines.length - 1 :=
      length_removeAt_of_lt _ _ hcy
    have hb2cy : b2.cy = b.cy - 1 := by
      rw [hb2, Buffer.move_caret_cy]
      show (min (max ((b.cy : Int) + (-1)) 0)
        (((removeAt b.lines b.cy).length : Int) - 1)).toNat = b.cy - 1
      rw [hlenrm]
      omega
    have hb2cx : b2.cx = 0 := by
      rw [hb2, Buffer.move_caret_cx]
      show (min (max ((b.cx : Int) + 0) 0) _).toNat = 0
      omega
    have hb2line : b2.line = b.lines.getD (b.cy - 1) [] := by
      simp only [Buffer.line]
      rw [hb2lines, hb2cy, getD_removeAt_of_lt _ _ _ (by omega) (by omega)]
    set b3 := b2.move_caret 0 ((b2.line.length : Int) - (b.cx : Int)) with hb3
    have hb3lines : b3.lines = removeAt b.lines b.cy := hb2lines
    have hb3cy : b3.cy = b.cy - 1 := by
      rw [hb3, Buffer.move_caret_cy]
      rw [hb2cy, hb2lines, hlenrm]
      omega
    have hb3cx : b3.cx = (b.lines.getD (b.cy - 1) []).length := by
      rw [hb3, Buffer.move_caret_cx, ← hb3]
      rw [hb2cx, hb2line, hb2lines, hb3cy,
        getD_removeAt_of_lt _ _ _ (by omega) (by omega)]
      omega
    have hb3line : b3.line = b.lines.getD (b.cy - 1) [] := by
      simp only [Buffer.line]
      rw [hb3lines, hb3cy, getD_removeAt_of_lt _ _ _ (by omega) (by omega)]
    refine ⟨?_, hb3cy, hb3cx⟩
    show b3.lines.set b3.cy (b3.line ++ b.lines.getD b.cy [])
        = b.lines.take (b.cy - 1)
          ++ (b.lines.getD (b.cy - 1) [] ++ b.lines.getD b.cy [])
            :: b.lines.drop (b.cy + 1)
    rw [hb3line, hb3lines, hb3cy, set_removeAt_pred _ _ _ (by omega) hcy]
  · simp only [Buffer.backspace]
    rw [if_neg (fun hc => hc.2 hy), if_neg (not_not_intro hx)]

/-- C7 witness: the merge behaviour applied to the concrete two-line
buffer `["abc", "def"]`. -/
theorem c7_witness :
    (abcdefBuf.Wf ∧ abcdefBuf.Small ∧ 2 ≤ abcdefBuf.h ∧ 1 ≤ abcdefBuf.w) ∧
    ((abcdefBuf.cx = 0 → abcdefBuf.cy ≠ 0 →
      abcdefBuf.backspace.lines
          = abcdefBuf.lines.take (abcdefBuf.cy - 1)
            ++ (abcdefBuf.lines.getD (abcdefBuf.cy - 1) []
                  ++ abcdefBuf.lines.getD abcdefBuf.cy [])
              :: abcdefBuf.lines.drop (abcdefBuf.cy + 1)
        ∧ abcdefBuf.backspace.cy = abcdefBuf.cy - 1
        ∧ abcdefBuf.backspace.cx
            = (abcdefBuf.lines.getD (abcdefBuf.cy - 1) []).length)
    ∧ (abcdefBuf.cx = 0 → abcdefBuf.cy = 0 → abcdefBuf.backspace = abcdefBuf)
    ∧ abcdefBuf.backspace = abcdefMergedBuf) :=
  ⟨⟨by decide, by decide, by decide, by decide⟩,
    c7_backspace_merges_lines abcdefBuf (by decide) (by decide) (by decide)
      (by decide)⟩

/-- C8: `move_caret` sets the row to `row + delta_row` clamped to
`[0, len(lines) - 1]`, then sets the column to `column + delta_col`
clamped to `[0, len(line[new row])]` against the NEW row's length;
out-of-range deltas are clamped (to the boundary), never wrapped and
never an error.  Each axis is characterized by its three clamping
cases. -/
theorem c8_move_caret_clamps (b : Buffer) (dr dc : Int) (hwf : b.Wf)
    (_hsm : b.Small) (_hh : 2 ≤ b.h) (_hw : 1 ≤ b.w)
    (_hdr : dr.natAbs ≤ Buffer.smallBound)
    (_hdc : dc.natAbs ≤ Buffer.smallBound) :
    (((b.cy : Int) + dr < 0 → (b.move_caret dr dc).cy = 0)
      ∧ (0 ≤ (b.cy : Int) + dr → (b.cy : Int) + dr ≤ (b.lines.length : Int) - 1 →
          ((b.move_caret dr dc).cy : Int) = (b.cy : Int) + dr)
      ∧ ((b.lines.length : Int) - 1 < (b.cy : Int) + dr →
          (b.move_caret dr dc).cy = b.lines.length - 1))
    ∧ (((b.cx : Int) + dc < 0 → (b.move_caret dr dc).cx = 0)
      ∧ (0 ≤ (b.cx : Int) + dc →
          (b.cx : Int) + dc ≤ ((b.lines.getD ((b.move_caret dr dc).cy) []).length : Int) →
          ((b.move_caret dr dc).cx : Int) = (b.cx : Int) + dc)
      ∧ (((b.lines.getD ((b.move_caret dr dc).cy) []).length : Int) < (b.cx : Int) + dc →
          (b.move_caret dr dc).cx = (b.lines.getD ((b.move_caret dr dc).cy) []).length)) := by
  obtain ⟨hcy, _hcx⟩ := hwf
  rw [Buffer.move_caret_cx, Buffer.move_caret_cy]
  refine ⟨⟨fun h => ?_, fun h1 h2 => ?_, fun h => ?_⟩,
    ⟨fun h => ?_, fun h1 h2 => ?_, fun h => ?_⟩⟩ <;> omega

/-- C8 witness: the clamping characterization instantiated on the
concrete two-line buffer with deltas (1, 5) (a down-move whose column
delta overshoots the new line). -/
theorem c8_witness :
    (abcdefBuf.Wf ∧ abcdefBuf.Small ∧ 2 ≤ abcdefBuf.h ∧ 1 ≤ abcdefBuf.w ∧
      (1 : Int).natAbs ≤ Buffer.smallBound ∧
      (5 : Int).natAbs ≤ Buffer.smallBound) ∧
    ((((abcdefBuf.cy : Int) + 1 < 0 → (abcdefBuf.move_caret 1 5).cy = 0)
      ∧ (0 ≤ (abcdefBuf.cy : Int) + 1 →
          (abcdefBuf.cy : Int) + 1 ≤ (abcdefBuf.lines.length : Int) - 1 →
          ((abcdefBuf.move_caret 1 5).cy : Int) = (abcdefBuf.cy : Int) + 1)
      ∧ ((abcdefBuf.lines.length : Int) - 1 < (abcdefBuf.cy : Int) + 1 →
          (abcdefBuf.move_caret 1 5).cy = abcdefBuf.lines.length - 1))
    ∧ (((abcdefBuf.cx : Int) + 5 < 0 → (abcdefBuf.move_caret 1 5).cx = 0)
      ∧ (0 ≤ (abcdefBuf.cx : Int) + 5 →
          (abcdefBuf.cx : Int) + 5 ≤
            ((abcdefBuf.lines.getD ((abcdefBuf.move_caret 1 5).cy) []).length : Int) →
          ((abcdefBuf.move_caret 1 5).cx : Int) = (abcdefBuf.cx : Int) + 5)
      ∧ (((abcdefBuf.lines.getD ((abcdefBuf.move_caret 1 5).cy) []).length : Int) <
            (abcdefBuf.cx : Int) + 5 →
          (abcdefBuf.move_caret 1 5).cx
            = (abcdefBuf.lines.getD ((abcdefBuf.move_caret 1 5).cy) []).length))) :=
  ⟨⟨by decide, by decide, by decide, by decide, by decide, by decide⟩,
    c8_move_caret_clamps abcdefBuf 1 5 (by decide) (by decide) (by decide)
      (by decide) (by decide) (by decide)⟩

/-- C9: after the new cursor is computed, `row_offset` is rederived: it
becomes the cursor row when the cursor moved above the viewport, becomes
`row - (height - 2)` when the cursor moved below `row_offset + (height - 2)`,
and is unchanged otherwise; analogously `col_offset` against `width - 1`.
Moreover, in a 10-line document with viewport height 5, nine repeated unit
down-moves from row 0 end with `row_offset = 6`. -/
theorem c9_offsets_rederived (b : Buffer) (dr dc : Int) (_hwf : b.Wf)
    (_hsm : b.Small) (_hh : 2 ≤ b.h) (_hw : 1 ≤ b.w)
    (_hdr : dr.natAbs ≤ Buffer.smallBound)
    (_hdc : dc.natAbs ≤ Buffer.smallBound) :
    ((b.move_caret dr dc).roff
        = (if (b.move_caret dr dc).cy < b.roff then (b.move_caret dr dc).cy
           else if (b.move_caret dr dc).cy > b.roff + (b.h - 2) then
             (b.move_caret dr dc).cy - (b.h - 2)
           else b.roff)
      ∧ (b.move_caret dr dc).coff
        = (if (b.move_caret dr dc).cx < b.coff then (b.move_caret dr dc).cx
           else if (b.move_caret dr dc).cx > b.coff + (b.w - 1) then
             (b.move_caret dr dc).cx - (b.w - 1)
           else b.coff))
    ∧ (downMoves 9 c9Buf).roff = 6 ∧ (downMoves 9 c9Buf).cy = 9 :=
  ⟨⟨Buffer.move_caret_roff b dr dc, Buffer.move_caret_coff b dr dc⟩,
    by decide, by decide⟩

/-- C9 witness: the offset rederivation applied to the concrete ten-line
buffer with a down-move. -/
theorem c9_witness :
    (c9Buf.Wf ∧ c9Buf.Small ∧ 2 ≤ c9Buf.h ∧ 1 ≤ c9Buf.w ∧
      (1 : Int).natAbs ≤ Buffer.smallBound ∧
      (0 : Int).natAbs ≤ Buffer.smallBound) ∧
    (((c9Buf.move_caret 1 0).roff
        = (if (c9Buf.move_caret 1 0).cy < c9Buf.roff then (c9Buf.move_caret 1 0).cy
           else if (c9Buf.move_caret 1 0).cy > c9Buf.roff + (c9Buf.h - 2) then
             (c9Buf.move_caret 1 0).cy - (c9Buf.h - 2)
           else c9Buf.roff)
      ∧ (c9Buf.move_caret 1 0).coff
        = (if (c9Buf.move_caret 1 0).cx < c9Buf.coff then (c9Buf.move_caret 1 0).cx
           else if (c9Buf.move_caret 1 0).cx > c9Buf.coff + (c9Buf.w - 1) then
             (c9Buf.move_caret 1 0).cx - (c9Buf.w - 1)
           else c9Buf.coff))
    ∧ (downMoves 9 c9Buf).roff = 6 ∧ (downMoves 9 c9Buf).cy = 9) :=
  ⟨⟨by decide, by decide, by decide, by decide, by decide, by decide⟩,
    c9_offsets_rederived c9Buf 1 0 (by decide) (by decide) (by decide)
      (by decide) (by decide) (by decide)⟩

end Wilo
